import Mathlib

/-!
Verification of the VuNe/json-parser core (lexer, recursive-descent parser,
error reporter) against its natural-language specification.

The embedding translates the Go sources:
  * the lexer of internal/lexer (token types, position tracking, NextToken
    with string, number and keyword scanning),
  * the parser of internal/parser/parser.go (Parse, ParseValue, parseObject,
    parseArray, parseNumber, parseBoolean, parseNull),
  * the error reporter (ErrorType, ParseError, NewParseError,
    NewDetailedParseError, generateJSONSnippet).

Go strings are byte sequences; they are modelled as List Nat with every
element a byte value.  Go int64 is modelled as Int with the explicit range
checks the code performs (strconv.ParseInt).  Go float64 conversion
(strconv.ParseFloat) is modelled with exact rationals: the payload of a
Float value is the exact rational denoted by the decimal text, with the
range errors of ParseFloat (overflow to infinity, underflow to zero)
reflected as failure; the rounding of in-range values to the nearest double
is abstracted away, since no claim depends on rounding.
-/

set_option maxRecDepth 40000

namespace JP

/-- Go strings are byte sequences: a list of byte values. -/
abbrev GoStr := List Nat

/-- Bytes of an ASCII Lean string literal (used to transcribe the string
literals of the Go sources). -/
def strBytes (s : String) : GoStr := s.data.map Char.toNat

/-- Decimal digits of a natural number, most significant first, as byte
values; fuel-structural so that it evaluates in the kernel. -/
def natDigitsAux : Nat → Nat → GoStr
  | 0, _ => []
  | fuel + 1, n => if n < 10 then [48 + n] else natDigitsAux fuel (n / 10) ++ [48 + n % 10]

/-- Rendering of a natural number in decimal (the %d verb of fmt). -/
def natDigits (n : Nat) : GoStr := natDigitsAux (n + 1) n

/-- The byte a Go cursor sees at the start of a suffix: its first byte,
or 0 (the end-of-input sentinel) when the suffix is empty. -/
def headByte : GoStr → Nat
  | [] => 0
  | c :: _ => c

/-- Go isDigit (lexer): ch >= 0x30 and ch <= 0x39. -/
def isDigit (c : Nat) : Bool := 48 ≤ c && c ≤ 57

/-- Go isAlpha (lexer): ASCII letter. -/
def isAlpha (c : Nat) : Bool := (97 ≤ c && c ≤ 122) || (65 ≤ c && c ≤ 90)

/-- Go isHexDigit (lexer). -/
def isHexDigit (c : Nat) : Bool := isDigit c || (65 ≤ c && c ≤ 70) || (97 ≤ c && c ≤ 102)

/-- Value of a hexadecimal digit byte (used by readUnicodeEscape). -/
def hexVal (c : Nat) : Nat :=
  if 48 ≤ c && c ≤ 57 then c - 48
  else if 65 ≤ c && c ≤ 70 then c - 65 + 10
  else if 97 ≤ c && c ≤ 102 then c - 97 + 10
  else 0

/-- Lowercase hex digit byte for a value below 16 (the %02x verb). -/
def hexDigitByte (n : Nat) : Nat := if n < 10 then 48 + n else 87 + n

/-- Two lowercase hex digits of a byte (the %02x verb of fmt). -/
def hex2 (c : Nat) : GoStr := [hexDigitByte (c / 16), hexDigitByte (c % 16)]

/-- UTF-8 encoding of a code point, as Go utf8.EncodeRune does for the code
points reachable here (at most 0xFFFF); surrogate halves encode the
replacement character U+FFFD. -/
def utf8EncodeRune (cp : Nat) : GoStr :=
  if cp < 128 then [cp]
  else if cp < 2048 then [192 + cp / 64, 128 + cp % 64]
  else if 55296 ≤ cp && cp ≤ 57343 then [239, 191, 189]
  else [224 + cp / 4096, 128 + (cp / 64) % 64, 128 + cp % 64]

/-- Go unicode.IsPrint restricted to the single bytes the lexer feeds it:
ASCII space through tilde, and the printable Latin-1 range (soft hyphen
excluded). -/
def goIsPrint (c : Nat) : Bool :=
  (32 ≤ c && c ≤ 126) || (161 ≤ c && c ≤ 255 && c ≠ 173)

/-- Substring search, transcribed from the repository helper findSubstring
(parser_test.go): scan every suffix for a prefix match. -/
def findSubstring : GoStr → GoStr → Bool
  | s, sub => if sub.isPrefixOf s then true else
      match s with
      | [] => false
      | _ :: t => findSubstring t sub

/-- Transcribed from the repository helper containsSubstring. -/
def containsSubstring (s sub : GoStr) : Bool :=
  sub.length = 0 || (sub.length ≤ s.length && findSubstring s sub)

/-- internal/lexer/position.go: Position with 1-based line and column and
0-based byte offset. -/
structure Position where
  line : Nat
  col : Nat
  offset : Nat
deriving DecidableEq, Repr

/-- Position.String(): "line %d, column %d". -/
def posString (p : Position) : GoStr :=
  strBytes "line " ++ natDigits p.line ++ strBytes ", column " ++ natDigits p.col

/-- token.go TokenType.  Constructor names follow the Go constants. -/
inductive TokenType where
  | INVALID | EOF
  | LEFT_BRACE | RIGHT_BRACE | LEFT_BRACKET | RIGHT_BRACKET
  | COLON | COMMA
  | STRING | NUMBER | BOOLEAN | NULL
deriving DecidableEq, Repr

/-- token.go TokenType.String(). -/
def tokenTypeString : TokenType → GoStr
  | .INVALID => strBytes "INVALID"
  | .EOF => strBytes "EOF"
  | .LEFT_BRACE => strBytes "LEFT_BRACE"
  | .RIGHT_BRACE => strBytes "RIGHT_BRACE"
  | .LEFT_BRACKET => strBytes "LEFT_BRACKET"
  | .RIGHT_BRACKET => strBytes "RIGHT_BRACKET"
  | .COLON => strBytes "COLON"
  | .COMMA => strBytes "COMMA"
  | .STRING => strBytes "STRING"
  | .NUMBER => strBytes "NUMBER"
  | .BOOLEAN => strBytes "BOOLEAN"
  | .NULL => strBytes "NULL"

/-- token.go Token: the Go fields Type, Value, Position are ttype, value,
pos (Type and Position collide with Lean names). -/
structure Token where
  ttype : TokenType
  value : GoStr
  pos : Position
deriving DecidableEq, Repr

/-- The Go zero value of Token (Type INVALID, empty Value, zero Position),
the state of currentToken and peekToken before the parser primes them. -/
def zeroToken : Token := ⟨.INVALID, [], ⟨0, 0, 0⟩⟩

/-!
The Go lexer keeps (input, current, ch, position); after the initial
readChar the state is determined by the byte offset o = position.Offset,
with ch equal to the byte at o (0 past the end).  The embedding keeps the
suffix of the input starting at o (so ch is its head, with head of the
empty list read as 0) together with the Position of that byte; readChar
becomes advancePos, which also performs the line/column bookkeeping the Go
readChar does from the previously consumed byte.
-/

/-- Lexer state: the unread suffix of the input and the Position of its
first byte. -/
structure LexState where
  rest : GoStr
  pos : Position
deriving DecidableEq, Repr

/-- lexer.New: cursor at the start of the input, position line 1, column 1,
offset 0. -/
def lexInit (input : GoStr) : LexState := ⟨input, ⟨1, 1, 0⟩⟩

/-- The current character l.ch: the byte under the cursor, 0 at or past the
end of input. -/
def chOf (s : LexState) : Nat := s.rest.headD 0

/-- readChar's position bookkeeping: consuming byte c advances the offset;
a consumed newline bumps the line and resets the column, any other byte
bumps the column. -/
def advancePos (c : Nat) (p : Position) : Position :=
  if c = 10 then ⟨p.line + 1, 1, p.offset + 1⟩ else ⟨p.line, p.col + 1, p.offset + 1⟩

/-- Position after consuming a list of bytes in order. -/
def advanceList : GoStr → Position → Position
  | [], p => p
  | c :: r, p => advanceList r (advancePos c p)

/-- lexer.HasMore: true while the current character is not the NUL
end-of-input sentinel. -/
def HasMore (s : LexState) : Bool := chOf s ≠ 0

/-- lexer.skipWhitespace: consume space, tab, newline, carriage return. -/
def skipWhitespace : GoStr → Position → GoStr × Position
  | [], p => ([], p)
  | c :: r, p =>
    if c = 32 || c = 9 || c = 10 || c = 13 then skipWhitespace r (advancePos c p)
    else (c :: r, p)

/-- Result of one Go lexer scan: the token, the error (its rendered
message, none on success), and the lexer state left behind. -/
structure ScanOut where
  tok : Token
  err : Option GoStr
  rest : GoStr
  pos : Position
deriving DecidableEq, Repr

/-- Message of fmt.Errorf("unterminated string at %s", position). -/
def msgUnterminated (p : Position) : GoStr := strBytes "unterminated string at " ++ posString p

/-- Message of fmt.Errorf("invalid escape sequence \x27\\%c\x27 at %s"). -/
def msgInvalidEscape (c : Nat) (p : Position) : GoStr :=
  strBytes "invalid escape sequence \x27\\" ++ utf8EncodeRune c ++ strBytes "\x27 at " ++ posString p

/-- Message of fmt.Errorf("incomplete Unicode escape sequence at %s"). -/
def msgIncompleteUnicode (p : Position) : GoStr :=
  strBytes "incomplete Unicode escape sequence at " ++ posString p

/-- Message of fmt.Errorf("invalid Unicode escape sequence \x27\\u%s\x27 at %s"),
where ds are the hex digits accepted so far. -/
def msgInvalidUnicode (ds : GoStr) (p : Position) : GoStr :=
  strBytes "invalid Unicode escape sequence \x27\\u" ++ ds ++ strBytes "\x27 at " ++ posString p

/-- Code point of four hex digit bytes, as readUnicodeEscape accumulates it. -/
def hex4Val (d1 d2 d3 d4 : Nat) : Nat :=
  ((hexVal d1 * 16 + hexVal d2) * 16 + hexVal d3) * 16 + hexVal d4

/-- lexer.readUnicodeEscape: entered with the cursor on the u of a \uXXXX
escape; skips the u and reads exactly four hex digits.  On success the
returned byte list is the UTF-8 encoding of the decoded code point; the
Go function leaves the cursor on the fourth digit and readString consumes
it with its trailing readChar, which is folded into the returned cursor
here.  On failure the error message and the cursor at the failing byte
are returned. -/
def readUnicodeEscape (rest : GoStr) (p : Position) : Except GoStr GoStr × GoStr × Position :=
  let r2 := rest.tail
  let p2 := advancePos 117 p
  let d1 := headByte r2
  if d1 = 0 then (.error (msgIncompleteUnicode p2), r2, p2)
  else if ¬ isHexDigit d1 then (.error (msgInvalidUnicode [] p2), r2, p2)
  else
    let r3 := r2.tail
    let p3 := advancePos d1 p2
    let d2 := headByte r3
    if d2 = 0 then (.error (msgIncompleteUnicode p3), r3, p3)
    else if ¬ isHexDigit d2 then (.error (msgInvalidUnicode [d1] p3), r3, p3)
    else
      let r4 := r3.tail
      let p4 := advancePos d2 p3
      let d3 := headByte r4
      if d3 = 0 then (.error (msgIncompleteUnicode p4), r4, p4)
      else if ¬ isHexDigit d3 then (.error (msgInvalidUnicode [d1, d2] p4), r4, p4)
      else
        let r5 := r4.tail
        let p5 := advancePos d3 p4
        let d4 := headByte r5
        if d4 = 0 then (.error (msgIncompleteUnicode p5), r5, p5)
        else if ¬ isHexDigit d4 then (.error (msgInvalidUnicode [d1, d2, d3] p5), r5, p5)
        else (.ok (utf8EncodeRune (hex4Val d1 d2 d3 d4)), r5.tail, advancePos d4 p5)

/-- lexer.readString main loop, entered after the opening quote was
consumed.  startPos is the position of the opening quote (the token
position and the position reported for an unterminated string); acc is
the accumulation buffer; rest/p are the cursor suffix and its position,
read through headByte, which returns the NUL sentinel on the empty
suffix exactly as the Go cursor does.  The loop consumes at least one
byte per iteration, so the fuel argument, initialized by readString to
the remaining length plus one, can never reach zero; the
fuel-exhaustion clause returns the unterminated-string failure the
empty suffix would produce.  Transcribed branch by branch from
readString in the lexer source. -/
def readStringLoop (startPos : Position) : Nat → GoStr → GoStr → Position → ScanOut
  | 0, acc, rest, p => ⟨⟨.INVALID, acc, startPos⟩, some (msgUnterminated startPos), rest, p⟩
  | fuel + 1, acc, rest, p =>
    let c := headByte rest
    if c = 34 then ⟨⟨.STRING, acc, startPos⟩, none, rest.tail, advancePos 34 p⟩
    else if c = 0 then ⟨⟨.INVALID, acc, startPos⟩, some (msgUnterminated startPos), rest, p⟩
    else if c = 92 then
      let r := rest.tail
      let e := headByte r
      let p1 := advancePos 92 p
      if e = 0 then ⟨⟨.INVALID, acc, startPos⟩, some (msgUnterminated startPos), r, p1⟩
      else if e = 34 then readStringLoop startPos fuel (acc ++ [34]) r.tail (advancePos e p1)
      else if e = 92 then readStringLoop startPos fuel (acc ++ [92]) r.tail (advancePos e p1)
      else if e = 47 then readStringLoop startPos fuel (acc ++ [47]) r.tail (advancePos e p1)
      else if e = 98 then readStringLoop startPos fuel (acc ++ [8]) r.tail (advancePos e p1)
      else if e = 102 then readStringLoop startPos fuel (acc ++ [12]) r.tail (advancePos e p1)
      else if e = 110 then readStringLoop startPos fuel (acc ++ [10]) r.tail (advancePos e p1)
      else if e = 114 then readStringLoop startPos fuel (acc ++ [13]) r.tail (advancePos e p1)
      else if e = 116 then readStringLoop startPos fuel (acc ++ [9]) r.tail (advancePos e p1)
      else if e = 117 then
        match readUnicodeEscape r p1 with
        | (.error m, r2, p2) => ⟨⟨.INVALID, acc, startPos⟩, some m, r2, p2⟩
        | (.ok bs, r2, p2) => readStringLoop startPos fuel (acc ++ bs) r2 p2
      else ⟨⟨.INVALID, acc, startPos⟩, some (msgInvalidEscape e p1), r, p1⟩
    else readStringLoop startPos fuel (acc ++ [c]) rest.tail (advancePos c p)

/-- lexer.readString: save the starting position, skip the opening quote,
run the scan loop. -/
def readString : GoStr → Position → ScanOut
  | [], p => ⟨⟨.INVALID, [], p⟩, some (msgUnterminated p), [], p⟩
  | _ :: r, p => readStringLoop p (r.length + 1) [] r (advancePos 34 p)

/-- Message of fmt.Errorf("invalid number format at %s", position). -/
def msgInvalidNumber (p : Position) : GoStr := strBytes "invalid number format at " ++ posString p

/-- Message of fmt.Errorf("numbers cannot have leading zeros at %s"). -/
def msgLeadingZeros (p : Position) : GoStr :=
  strBytes "numbers cannot have leading zeros at " ++ posString p

/-- Message of fmt.Errorf("invalid number format: missing digits after
decimal point at %s"). -/
def msgMissingFracDigits (p : Position) : GoStr :=
  strBytes "invalid number format: missing digits after decimal point at " ++ posString p

/-- Message of fmt.Errorf("invalid number format: missing digits in
exponent at %s"). -/
def msgMissingExpDigits (p : Position) : GoStr :=
  strBytes "invalid number format: missing digits in exponent at " ++ posString p

/-- A digit-consuming loop of readNumber ("for isDigit(l.ch) ..."):
returns the digits appended to acc, the remaining suffix, and its
position. -/
def digitRun (acc : GoStr) : GoStr → Position → GoStr × GoStr × Position
  | [], p => (acc, [], p)
  | c :: r, p => if isDigit c then digitRun (acc ++ [c]) r (advancePos c p) else (acc, c :: r, p)

/-- readNumber, optional exponent phase: at this point the integer part
and optional fractional part have been consumed into value.  The cursor
head is inspected through headD 0, which conflates the empty suffix with
the NUL byte exactly as the Go cursor does (l.ch is 0 in both cases). -/
def numExp (startPos : Position) (value : GoStr) (rest : GoStr) (p : Position) : ScanOut :=
  let c := headByte rest
  if c = 101 || c = 69 then
    let r := rest.tail
    let s := headByte r
    if s = 43 || s = 45 then
      let value1 := value ++ [c, s]
      let r2 := r.tail
      let p2 := advancePos s (advancePos c p)
      if ¬ isDigit (headByte r2) then
        ⟨⟨.INVALID, value1, startPos⟩, some (msgMissingExpDigits startPos), r2, p2⟩
      else
        let t := digitRun [] r2 p2
        ⟨⟨.NUMBER, value1 ++ t.1, startPos⟩, none, t.2.1, t.2.2⟩
    else
      let p1 := advancePos c p
      if ¬ isDigit (headByte r) then
        ⟨⟨.INVALID, value ++ [c], startPos⟩, some (msgMissingExpDigits startPos), r, p1⟩
      else
        let t := digitRun [] r p1
        ⟨⟨.NUMBER, value ++ [c] ++ t.1, startPos⟩, none, t.2.1, t.2.2⟩
  else ⟨⟨.NUMBER, value, startPos⟩, none, rest, p⟩

/-- readNumber, optional fractional phase: a decimal point must be
followed by at least one digit, then all digits are consumed. -/
def numFrac (startPos : Position) (value : GoStr) (rest : GoStr) (p : Position) : ScanOut :=
  if headByte rest = 46 then
    let r := rest.tail
    let p1 := advancePos 46 p
    if ¬ isDigit (headByte r) then
      ⟨⟨.INVALID, value ++ [46], startPos⟩, some (msgMissingFracDigits startPos), r, p1⟩
    else
      let t := digitRun [] r p1
      numExp startPos (value ++ [46] ++ t.1) t.2.1 t.2.2
  else numExp startPos value rest p

/-- readNumber, integer-part phase: a first digit 0 may not be followed by
another digit; otherwise all digits are consumed. -/
def numInt (startPos : Position) (value : GoStr) (rest : GoStr) (p : Position) : ScanOut :=
  if headByte rest = 48 then
    let r := rest.tail
    let p1 := advancePos 48 p
    if isDigit (headByte r) then
      ⟨⟨.INVALID, value ++ [48], startPos⟩, some (msgLeadingZeros startPos), r, p1⟩
    else numFrac startPos (value ++ [48]) r p1
  else
    let t := digitRun value rest p
    numFrac startPos t.1 t.2.1 t.2.2

/-- lexer.readNumber: optional leading minus (which must be followed by a
digit), then the integer, fraction and exponent phases.  The token value
is exactly the bytes consumed; the token position is the starting
position. -/
def readNumber (rest : GoStr) (p : Position) : ScanOut :=
  if headByte rest = 45 then
    let r := rest.tail
    let p1 := advancePos 45 p
    if ¬ isDigit (headByte r) then
      ⟨⟨.INVALID, [45], p⟩, some (msgInvalidNumber p), r, p1⟩
    else numInt p [45] r p1
  else numInt p [] rest p

/-- Message of fmt.Errorf("invalid keyword \x27%s\x27 at %s"). -/
def msgInvalidKeyword (kw : GoStr) (p : Position) : GoStr :=
  strBytes "invalid keyword \x27" ++ kw ++ strBytes "\x27 at " ++ posString p

/-- The alphabetic-consuming loop of readKeyword. -/
def alphaRun (acc : GoStr) : GoStr → Position → GoStr × GoStr × Position
  | [], p => (acc, [], p)
  | c :: r, p => if isAlpha c then alphaRun (acc ++ [c]) r (advancePos c p) else (acc, c :: r, p)

/-- lexer.readKeyword: consume all alphabetic bytes, then match exactly
against true, false, null. -/
def readKeyword (rest : GoStr) (p : Position) : ScanOut :=
  let t := alphaRun [] rest p
  let kw := t.1
  if kw = strBytes "true" || kw = strBytes "false" then
    ⟨⟨.BOOLEAN, kw, p⟩, none, t.2.1, t.2.2⟩
  else if kw = strBytes "null" then ⟨⟨.NULL, kw, p⟩, none, t.2.1, t.2.2⟩
  else ⟨⟨.INVALID, kw, p⟩, some (msgInvalidKeyword kw p), t.2.1, t.2.2⟩

/-- Message of fmt.Errorf("unexpected character \x27%c\x27 at %s") for a
printable byte. -/
def msgUnexpectedChar (c : Nat) (p : Position) : GoStr :=
  strBytes "unexpected character \x27" ++ utf8EncodeRune c ++ strBytes "\x27 at " ++ posString p

/-- Message of fmt.Errorf("unexpected character \x27\\x%02x\x27 at %s")
for a non-printable byte. -/
def msgUnexpectedHex (c : Nat) (p : Position) : GoStr :=
  strBytes "unexpected character \x27\\x" ++ hex2 c ++ strBytes "\x27 at " ++ posString p

/-- lexer.NextToken: skip whitespace, capture the token position, dispatch
on the current byte.  Returns the new lexer state, the token, and the scan
error when the scan failed (the Go function returns the pair
(Token, error)). -/
def lexNextToken (s : LexState) : LexState × Token × Option GoStr :=
  let w := skipWhitespace s.rest s.pos
  let rest := w.1
  let p := w.2
  let c := headByte rest
  if c = 123 then (⟨rest.tail, advancePos c p⟩, ⟨.LEFT_BRACE, [c], p⟩, none)
  else if c = 125 then (⟨rest.tail, advancePos c p⟩, ⟨.RIGHT_BRACE, [c], p⟩, none)
  else if c = 91 then (⟨rest.tail, advancePos c p⟩, ⟨.LEFT_BRACKET, [c], p⟩, none)
  else if c = 93 then (⟨rest.tail, advancePos c p⟩, ⟨.RIGHT_BRACKET, [c], p⟩, none)
  else if c = 58 then (⟨rest.tail, advancePos c p⟩, ⟨.COLON, [c], p⟩, none)
  else if c = 44 then (⟨rest.tail, advancePos c p⟩, ⟨.COMMA, [c], p⟩, none)
  else if c = 34 then
    let o := readString rest p
    (⟨o.rest, o.pos⟩, o.tok, o.err)
  else if c = 0 then (⟨rest, p⟩, ⟨.EOF, [], p⟩, none)
  else if c = 45 || isDigit c then
    let o := readNumber rest p
    (⟨o.rest, o.pos⟩, o.tok, o.err)
  else if isAlpha c then
    let o := readKeyword rest p
    (⟨o.rest, o.pos⟩, o.tok, o.err)
  else if goIsPrint c then
    (⟨rest, p⟩, ⟨.INVALID, utf8EncodeRune c, p⟩, some (msgUnexpectedChar c p))
  else (⟨rest, p⟩, ⟨.INVALID, [92, 120] ++ hex2 c, p⟩, some (msgUnexpectedHex c p))

/-!  Error reporter (errors.go, the source appended in
parser_coverage_test.go): ErrorType, ParseError, the constructors, and
generateJSONSnippet. -/

/-- errors.go ErrorType. -/
inductive ErrType where
  | LexicalError | SyntaxError | SemanticError
deriving DecidableEq, Repr

/-- errors.go ParseError.  Go fields Type, Message, Position, Token,
Expected, Found, JSONSnippet, Suggestion, SourceInput. -/
structure ParseError where
  etype : ErrType
  message : GoStr
  pos : Position
  token : Token
  expected : List GoStr
  found : GoStr
  jsonSnippet : GoStr
  suggestion : GoStr
  sourceInput : GoStr
deriving DecidableEq, Repr

/-- errors.go NewParseError (the basic constructor used by parser.go):
always a SyntaxError; Found is token.Type.String(); the other enhanced
fields stay empty. -/
def NewParseError (message : GoStr) (token : Token) : ParseError :=
  ⟨.SyntaxError, message, token.pos, token, [], tokenTypeString token.ttype, [], [], []⟩

/-- strings.Split(s, "\n") on byte strings. -/
def splitOnNL : GoStr → List GoStr
  | [] => [[]]
  | c :: r =>
    if c = 10 then [] :: splitOnNL r
    else
      match splitOnNL r with
      | [] => [[c]]
      | h :: t => (c :: h) :: t

/-- errors.go generateJSONSnippet: empty for empty source or an
out-of-range line; otherwise the line prefixed with "%d| ", a newline, and
a pointer line of spaces that carries the caret only when the column lies
within the line. -/
def generateJSONSnippet (e : ParseError) : GoStr :=
  if e.sourceInput = [] then []
  else
    let lines := splitOnNL e.sourceInput
    if e.pos.line < 1 || lines.length < e.pos.line then []
    else
      let line := lines.getD (e.pos.line - 1) []
      let pre := natDigits e.pos.line ++ strBytes "| "
      let pointerPad := List.replicate pre.length 32
      let pointer :=
        if 0 < e.pos.col && e.pos.col ≤ line.length then
          pointerPad ++ List.replicate (e.pos.col - 1) 32 ++ [94]
        else pointerPad
      pre ++ line ++ [10] ++ pointer

/-- errors.go NewDetailedParseError: full constructor setting Found to
"\x27%s\x27 (%s)" of the token value and kind and rendering the snippet. -/
def NewDetailedParseError (errorType : ErrType) (message : GoStr) (token : Token)
    (expected : List GoStr) (suggestion : GoStr) (sourceInput : GoStr) : ParseError :=
  let found := strBytes "\x27" ++ token.value ++ strBytes "\x27 (" ++
    tokenTypeString token.ttype ++ strBytes ")"
  let pe : ParseError :=
    ⟨errorType, message, token.pos, token, expected, found, [], suggestion, sourceInput⟩
  { pe with jsonSnippet := generateJSONSnippet pe }

/-!  Value model (values.go) and number conversion (strconv). -/

/-- The exact value a float64 conversion denotes, kept as an unnormalized
fraction (numerator over positive denominator) so that it evaluates with
kernel-accelerated integer arithmetic.  Two fractions denote the same
number exactly when val agrees. -/
structure GoFloat where
  num : Int
  den : Nat
deriving DecidableEq, Repr

/-- The rational value of a fraction. -/
def GoFloat.val (f : GoFloat) : Rat := (f.num : Rat) / (f.den : Rat)

/-- values.go: the dynamic Go values (map[string]any, []any, string,
int64, float64, bool, nil) as a closed sum.  A JSONObject is an
association list with unique keys; objInsert below realises the Go map
assignment obj[key] = value. -/
inductive JSONValue where
  | object : List (GoStr × JSONValue) → JSONValue
  | arr : List JSONValue → JSONValue
  | str : GoStr → JSONValue
  | int : Int → JSONValue
  | float : GoFloat → JSONValue
  | bool : Bool → JSONValue
  | null : JSONValue

/-- Go map assignment obj[key] = value: replace the binding when the key
is present, append it otherwise. -/
def objInsert (obj : List (GoStr × JSONValue)) (k : GoStr) (v : JSONValue) :
    List (GoStr × JSONValue) :=
  match obj with
  | [] => [(k, v)]
  | (k0, v0) :: t => if k0 = k then (k, v) :: t else (k0, v0) :: objInsert t k v

/-- Go map lookup obj[key]. -/
def objLookup (obj : List (GoStr × JSONValue)) (k : GoStr) : Option JSONValue :=
  match obj with
  | [] => none
  | (k0, v0) :: t => if k0 = k then some v0 else objLookup t k

/-- foldl accumulation of decimal digit bytes into a natural number. -/
def digitsToNat (ds : GoStr) : Nat := ds.foldl (fun a c => a * 10 + (c - 48)) 0

/-- strconv.ParseInt(s, 10, 64): an optional single sign, then a nonempty
run of decimal digits, with the result required to fit in a signed 64-bit
integer; anything else is an error (Option.none). -/
def goParseInt64 (s : GoStr) : Option Int :=
  match s with
  | [] => none
  | c :: r =>
    let neg := c = 45
    let ds := if c = 45 || c = 43 then r else c :: r
    if ds = [] || ¬ ds.all isDigit then none
    else
      let n := digitsToNat ds
      if neg then if n ≤ 2 ^ 63 then some (-(n : Int)) else none
      else if n ≤ 2 ^ 63 - 1 then some (n : Int) else none

/-- strconv.ParseFloat(s, 64) on the decimal texts reachable here.
Modelled from the documented strconv semantics: the text [sign] digits
[. digits] [e|E [sign] digits] (with at least one digit in the mantissa
and, when an exponent marker is present, at least one exponent digit)
denotes an exact rational value; a value whose magnitude reaches the
float64 overflow threshold 2^1024 - 2^970, or a non-zero value whose
magnitude is at most the underflow-to-zero threshold 2^-1075, makes
ParseFloat report ErrRange, which parser.go treats as failure; in-range
values succeed, the rounding to the nearest double being abstracted to
the exact rational (no claim depends on the rounding). -/
def goParseFloat (s : GoStr) : Option GoFloat :=
  match s with
  | [] => none
  | c0 :: r0 =>
    let neg := c0 = 45
    let s1 := if c0 = 45 || c0 = 43 then r0 else c0 :: r0
    let ip := s1.takeWhile isDigit
    let s2 := s1.dropWhile isDigit
    let fp := if s2.headD 0 = 46 then s2.tail.takeWhile isDigit else []
    let s3 := if s2.headD 0 = 46 then s2.tail.dropWhile isDigit else s2
    if ip = [] && fp = [] then none
    else
      let scaled : Option GoFloat :=
        let mant : GoFloat := ⟨(digitsToNat (ip ++ fp) : Nat), 10 ^ fp.length⟩
        match s3 with
        | [] => some mant
        | e :: r4 =>
          if e = 101 || e = 69 then
            let eneg := r4.headD 0 = 45
            let ds := if r4.headD 0 = 45 || r4.headD 0 = 43 then r4.tail else r4
            if ds = [] || ¬ ds.all isDigit then none
            else
              let ev := digitsToNat ds
              if eneg then some ⟨mant.num, mant.den * 10 ^ ev⟩
              else some ⟨mant.num * (10 ^ ev : Nat), mant.den⟩
          else none
      match scaled with
      | none => none
      | some m =>
        let q : GoFloat := if neg then ⟨-m.num, m.den⟩ else m
        if ((2 ^ 1024 - 2 ^ 970 : Nat) : Int) * (q.den : Int) ≤ q.num.natAbs then none
        else if q.num ≠ 0 && (q.num.natAbs : Int) * (2 ^ 1075 : Nat) ≤ (q.den : Int) then none
        else some q

/-!  Parser (internal/parser/parser.go).  The parser state holds the lexer
plus the one-token lookahead (currentToken, peekToken). -/

/-- parser.go parser struct: lexer state, currentToken, peekToken. -/
structure PState where
  lex : LexState
  cur : Token
  peek : Token
deriving DecidableEq, Repr

/-- parser.nextToken: shift peek into current and pull a fresh token; a
lexer error becomes a synthetic INVALID token whose value is the rendered
error message and whose position is the lexer position after the failed
scan. -/
def nextTokenP (p : PState) : PState :=
  match lexNextToken p.lex with
  | (l2, tok, none) => ⟨l2, p.peek, tok⟩
  | (l2, _, some msg) => ⟨l2, p.peek, ⟨.INVALID, msg, l2.pos⟩⟩

/-- parser.New: prime currentToken and peekToken with two advances from
the Go zero tokens. -/
def pInit (input : GoStr) : PState :=
  nextTokenP (nextTokenP ⟨lexInit input, zeroToken, zeroToken⟩)

/-- parser.parseNumber: read the token text, advance, try ParseInt then
ParseFloat; when both fail the error references the token the parser has
already advanced to. -/
def parseNumberStep (p : PState) : Except ParseError (JSONValue × PState) :=
  let value := p.cur.value
  let p2 := nextTokenP p
  match goParseInt64 value with
  | some i => .ok (.int i, p2)
  | none =>
    match goParseFloat value with
    | some q => .ok (.float q, p2)
    | none => .error (NewParseError (strBytes "invalid number format") p2.cur)

/-- parser.parseBoolean. -/
def parseBooleanStep (p : PState) : Except ParseError (JSONValue × PState) :=
  let value := p.cur.value
  let p2 := nextTokenP p
  if value = strBytes "true" then .ok (.bool true, p2)
  else if value = strBytes "false" then .ok (.bool false, p2)
  else .error (NewParseError (strBytes "invalid boolean value") p2.cur)

/-- parser.parseNull. -/
def parseNullStep (p : PState) : Except ParseError (JSONValue × PState) :=
  let value := p.cur.value
  let p2 := nextTokenP p
  if value = strBytes "null" then .ok (.null, p2)
  else .error (NewParseError (strBytes "invalid null value") p2.cur)

/-- The mutually recursive grammar procedures of parser.go, reified as
frames so that the whole recursive descent is one function that is
structural in its fuel (and therefore evaluates in the kernel):
value is parseValue; objectStart is the prologue of parseObject (brace
check, EOF check, empty-object fast path); objectMember is one iteration
of the parseObject loop up to storing the pair; objectSep is the
comma-or-closing-brace decision at the end of that iteration, including
the trailing-comma rejection; arrayStart, arrayElem, arraySep are the
parseArray counterparts. -/
inductive PFrame where
  | value
  | objectStart
  | objectMember (obj : List (GoStr × JSONValue))
  | objectSep (obj : List (GoStr × JSONValue))
  | arrayStart
  | arrayElem (arr : List JSONValue)
  | arraySep (arr : List JSONValue)

/-- The recursive descent of parser.go.  Returns none only on fuel
exhaustion, which no Go behaviour corresponds to; theorems about whole
parses use a fuel that is evidently sufficient. -/
def pstep : Nat → PFrame → PState → Option (Except ParseError (JSONValue × PState))
  | 0, _, _ => none
  | fuel + 1, fr, p =>
    match fr with
    | .value =>
      match p.cur.ttype with
      | .LEFT_BRACE => pstep fuel .objectStart p
      | .LEFT_BRACKET => pstep fuel .arrayStart p
      | .STRING => some (.ok (.str p.cur.value, nextTokenP p))
      | .NUMBER => some (parseNumberStep p)
      | .BOOLEAN => some (parseBooleanStep p)
      | .NULL => some (parseNullStep p)
      | .EOF => some (.error (NewParseError (strBytes "unexpected end of input") p.cur))
      | _ => some (.error (NewParseError (strBytes "expected JSON value") p.cur))
    | .objectStart =>
      if p.cur.ttype ≠ .LEFT_BRACE then
        some (.error (NewParseError (strBytes "expected \x27\x7b\x27") p.cur))
      else
        let p1 := nextTokenP p
        if p1.cur.ttype = .EOF then
          some (.error (NewParseError (strBytes "expected \x27\x7d\x27") p1.cur))
        else if p1.cur.ttype = .RIGHT_BRACE then some (.ok (.object [], nextTokenP p1))
        else pstep fuel (.objectMember []) p1
    | .objectMember obj =>
      if p.cur.ttype ≠ .STRING then
        some (.error (NewParseError (strBytes "expected string key") p.cur))
      else
        let key := p.cur.value
        let p1 := nextTokenP p
        if p1.cur.ttype ≠ .COLON then
          some (.error (NewParseError (strBytes "expected \x27:\x27") p1.cur))
        else
          match pstep fuel .value (nextTokenP p1) with
          | none => none
          | some (.error e) => some (.error e)
          | some (.ok (v, p3)) => pstep fuel (.objectSep (objInsert obj key v)) p3
    | .objectSep obj =>
      if p.cur.ttype = .RIGHT_BRACE then some (.ok (.object obj, nextTokenP p))
      else if p.cur.ttype = .COMMA then
        let p1 := nextTokenP p
        if p1.cur.ttype = .RIGHT_BRACE then
          some (.error (NewParseError (strBytes "trailing comma not allowed") p1.cur))
        else pstep fuel (.objectMember obj) p1
      else some (.error (NewParseError (strBytes "expected \x27,\x27 or \x27\x7d\x27") p.cur))
    | .arrayStart =>
      if p.cur.ttype ≠ .LEFT_BRACKET then
        some (.error (NewParseError (strBytes "expected \x27[\x27") p.cur))
      else
        let p1 := nextTokenP p
        if p1.cur.ttype = .EOF then
          some (.error (NewParseError (strBytes "expected \x27]\x27") p1.cur))
        else if p1.cur.ttype = .RIGHT_BRACKET then some (.ok (.arr [], nextTokenP p1))
        else pstep fuel (.arrayElem []) p1
    | .arrayElem arr =>
      match pstep fuel .value p with
      | none => none
      | some (.error e) => some (.error e)
      | some (.ok (v, p1)) => pstep fuel (.arraySep (arr ++ [v])) p1
    | .arraySep arr =>
      if p.cur.ttype = .RIGHT_BRACKET then some (.ok (.arr arr, nextTokenP p))
      else if p.cur.ttype = .COMMA then
        let p1 := nextTokenP p
        if p1.cur.ttype = .RIGHT_BRACKET then
          some (.error (NewParseError (strBytes "trailing comma not allowed") p1.cur))
        else pstep fuel (.arrayElem arr) p1
      else some (.error (NewParseError (strBytes "expected \x27,\x27 or \x27]\x27") p.cur))

/-- parser.ParseValue on a primed parser state. -/
def ParseValueP (fuel : Nat) (p : PState) : Option (Except ParseError (JSONValue × PState)) :=
  pstep fuel .value p

/-- parser.Parse: one value, then the current token must be EOF. -/
def Parse (fuel : Nat) (p : PState) : Option (Except ParseError JSONValue) :=
  match pstep fuel .value p with
  | none => none
  | some (.error e) => some (.error e)
  | some (.ok (v, p1)) =>
    if p1.cur.ttype = .EOF then some (.ok v)
    else some (.error (NewParseError (strBytes "expected EOF after JSON value") p1.cur))

/-- End-to-end parse of a byte input: lexer.New, parser.New, Parse, with a
fuel that the recursion (which consumes at least one token every two
frames, and at least one input byte per token) can never exhaust. -/
def ParseBytes (input : GoStr) : Option (Except ParseError JSONValue) :=
  Parse (4 * input.length + 16) (pInit input)

/-- The message of the error result of a parse, when there is one. -/
def parseErrMsg : Option (Except ParseError JSONValue) → Option GoStr
  | some (.error e) => some e.message
  | _ => none

/-- The classification of the error result of a parse, when there is one. -/
def parseErrType : Option (Except ParseError JSONValue) → Option ErrType
  | some (.error e) => some e.etype
  | _ => none

/-- The reported column of the error result of a parse, when there is one. -/
def parseErrCol : Option (Except ParseError JSONValue) → Option Nat
  | some (.error e) => some e.pos.col
  | _ => none

/-!  Helper lemmas. -/

theorem advanceList_append (a b : GoStr) (p : Position) :
    advanceList (a ++ b) p = advanceList b (advanceList a p) := by
  induction a generalizing p with
  | nil => rfl
  | cons c t ih => simp [advanceList, ih]

theorem isDigit_bounds {c : Nat} (h : isDigit c = true) : 48 ≤ c ∧ c ≤ 57 := by
  simpa [isDigit] using h

theorem digitRun_append (ds : GoStr) : ∀ (acc rest : GoStr) (p : Position),
    (∀ c ∈ ds, isDigit c = true) → isDigit (headByte rest) = false →
    digitRun acc (ds ++ rest) p = (acc ++ ds, rest, advanceList ds p) := by
  induction ds with
  | nil =>
    intro acc rest p _ hr
    cases rest with
    | nil => simp [digitRun, advanceList]
    | cons c r =>
      simp only [headByte] at hr
      simp [digitRun, advanceList, hr]
  | cons d t ih =>
    intro acc rest p hds hr
    have hd : isDigit d = true := hds d (by simp)
    simp only [List.cons_append, digitRun, hd, if_pos, List.append_eq]
    rw [ih (acc ++ [d]) rest (advancePos d p) (fun c hc => hds c (by simp [hc])) hr]
    simp [advanceList]

/-!  Claim C2: duplicate object keys, last write wins. -/

/-- C2 (confirmed): storing an object member uses the Go map assignment
objInsert, for which a later write to the same key irrevocably replaces
the earlier one (first two conjuncts, for every object, key and values);
in particular the spec example parses to an object whose only entry is the
second binding of k. -/
theorem C2_duplicate_keys_last_write_wins :
    (∀ (obj : List (GoStr × JSONValue)) (k : GoStr) (v1 v2 : JSONValue),
        objInsert (objInsert obj k v1) k v2 = objInsert obj k v2) ∧
    (∀ (obj : List (GoStr × JSONValue)) (k : GoStr) (v : JSONValue),
        objLookup (objInsert obj k v) k = some v) ∧
    ParseBytes (strBytes "\x7b\x22k\x22:1,\x22k\x22:2\x7d") =
      some (.ok (.object [(strBytes "k", .int 2)])) := by
  refine ⟨?_, ?_, rfl⟩
  · intro obj k v1 v2
    induction obj with
    | nil => simp [objInsert]
    | cons h t ih =>
      obtain ⟨k0, v0⟩ := h
      by_cases hk : k0 = k <;> simp [objInsert, hk, ih]
  · intro obj k v
    induction obj with
    | nil => simp [objInsert, objLookup]
    | cons h t ih =>
      obtain ⟨k0, v0⟩ := h
      by_cases hk : k0 = k <;> simp [objInsert, objLookup, hk, ih]

/-!  Claim C8: error position of the missing colon. -/

/-- C8 (confirmed): parsing the spec example stops at the string token
that follows the key, at 1-based column 8, with the missing-colon
message. -/
theorem C8_missing_colon_column :
    parseErrCol (ParseBytes (strBytes "\x7b\x22key\x22 \x22value\x22\x7d")) = some 8 ∧
    parseErrMsg (ParseBytes (strBytes "\x7b\x22key\x22 \x22value\x22\x7d")) =
      some (strBytes "expected \x27:\x27") := ⟨rfl, rfl⟩

/-!  Claim C9: hasMore versus the cursor. -/

/-- C9 counterexample: on the two-byte input NUL a the fresh lexer has its
cursor at offset 0, before the end of the input, yet HasMore is already
false, because byte value 0 is the end-of-input sentinel of the lexer. -/
theorem C9_nul_byte_counterexample :
    HasMore (lexInit [0, 97]) = false ∧ (lexInit [0, 97]).rest.length = 2 ∧
    (lexInit [0, 97]).pos.offset = 0 := ⟨rfl, rfl, rfl⟩

/-- C9 (amended): hasMore is true exactly when the byte at the cursor is
not the NUL sentinel; on inputs free of NUL bytes this coincides, for
every lexer state over such a suffix, with the cursor not having consumed
the whole input. -/
theorem C9_hasMore_amended :
    (∀ s : LexState, HasMore s = true ↔ chOf s ≠ 0) ∧
    (∀ s : LexState, (∀ c ∈ s.rest, c ≠ 0) → (HasMore s = true ↔ s.rest ≠ [])) := by
  constructor
  · intro s
    simp [HasMore]
  · intro s h
    cases hr : s.rest with
    | nil => simp [HasMore, chOf, hr]
    | cons c t =>
      have hc : c ≠ 0 := h c (by rw [hr]; simp)
      simp [HasMore, chOf, hr, hc]

/-- C9 witness: the amended equivalence evaluated on the fresh lexer over
the single byte left brace. -/
theorem C9_hasMore_amended_witness : HasMore (lexInit [123]) = true := by
  have h := C9_hasMore_amended.2 (lexInit [123]) (by decide)
  exact h.mpr (by decide)

/-!  Claim C4: single top-level value enforcement. -/

/-- C4 counterexample: the message the parser actually produces for a
concatenated document is "expected EOF after JSON value", not the
"expected end of input after JSON value" the claim states. -/
theorem C4_message_text_counterexample :
    parseErrMsg (ParseBytes (strBytes "\x7b\x7d \x7b\x7d")) =
      some (strBytes "expected EOF after JSON value") ∧
    strBytes "expected EOF after JSON value" ≠
      strBytes "expected end of input after JSON value" := ⟨rfl, by decide⟩

/-- C4 (amended): after any successful value whose following token is not
EOF, Parse fails with the SyntaxError "expected EOF after JSON value"
positioned at that token, for every fuel and parser state; in particular
the concatenated document of the spec fails with that message. -/
theorem C4_expected_eof_amended :
    (∀ (fuel : Nat) (p : PState) (v : JSONValue) (p1 : PState),
        pstep fuel .value p = some (.ok (v, p1)) → p1.cur.ttype ≠ .EOF →
        Parse fuel p =
          some (.error (NewParseError (strBytes "expected EOF after JSON value") p1.cur))) ∧
    parseErrMsg (ParseBytes (strBytes "\x7b\x7d \x7b\x7d")) =
      some (strBytes "expected EOF after JSON value") := by
  refine ⟨?_, rfl⟩
  intro fuel p v p1 h hne
  unfold Parse
  rw [h]
  simp [hne]

/-- C4 witness: the amended statement applied to the concatenated
document, whose second value starts with the left brace at column 4. -/
theorem C4_expected_eof_amended_witness :
    Parse 36 (pInit (strBytes "\x7b\x7d \x7b\x7d")) =
      some (.error (NewParseError (strBytes "expected EOF after JSON value")
        ⟨.LEFT_BRACE, [123], ⟨1, 4, 3⟩⟩)) := by
  have h := C4_expected_eof_amended.1 36 (pInit (strBytes "\x7b\x7d \x7b\x7d"))
    (.object []) _ rfl (by decide)
  exact h

/-!  Claim C5: trailing commas. -/

/-- C5 counterexample: the input left bracket, comma, right bracket
contains a comma immediately followed by the closing bracket of an array,
yet the parse fails with "expected JSON value" (the comma is reached where
an element is required), a message that does not identify a trailing
comma. -/
theorem C5_leading_comma_counterexample :
    parseErrMsg (ParseBytes (strBytes "[,]")) = some (strBytes "expected JSON value") ∧
    containsSubstring (strBytes "expected JSON value") (strBytes "trailing comma") = false :=
  ⟨rfl, by decide⟩

/-- C5 (amended): whenever the member (respectively element) separator
position of an object (array) holds a Comma token whose successor token is
the closing brace (bracket), the parse fails with the SyntaxError
"trailing comma not allowed" at the closing token, for every fuel, partial
object/array and parser state; the spec examples fail with exactly that
message, and the message identifies the trailing comma.  A comma-plus-
closing-bracket sequence reached where a value is required (such as the
counterexample input) instead reports that earlier error. -/
theorem C5_trailing_comma_amended :
    (∀ (fuel : Nat) (obj : List (GoStr × JSONValue)) (p : PState),
        p.cur.ttype = .COMMA → (nextTokenP p).cur.ttype = .RIGHT_BRACE →
        pstep (fuel + 1) (.objectSep obj) p =
          some (.error (NewParseError (strBytes "trailing comma not allowed")
            (nextTokenP p).cur))) ∧
    (∀ (fuel : Nat) (arr : List JSONValue) (p : PState),
        p.cur.ttype = .COMMA → (nextTokenP p).cur.ttype = .RIGHT_BRACKET →
        pstep (fuel + 1) (.arraySep arr) p =
          some (.error (NewParseError (strBytes "trailing comma not allowed")
            (nextTokenP p).cur))) ∧
    parseErrMsg (ParseBytes (strBytes "\x7b\x22k\x22:1,\x7d")) =
      some (strBytes "trailing comma not allowed") ∧
    parseErrMsg (ParseBytes (strBytes "[1,]")) = some (strBytes "trailing comma not allowed") ∧
    containsSubstring (strBytes "trailing comma not allowed") (strBytes "trailing comma") =
      true := by
  refine ⟨?_, ?_, rfl, rfl, by decide⟩
  · intro fuel obj p hc hb
    simp [pstep, hc, hb]
  · intro fuel arr p hc hb
    simp [pstep, hc, hb]

/-- C5 witness: the amended statement applied at separator states built
from the inputs comma-brace and comma-bracket. -/
theorem C5_trailing_comma_amended_witness :
    pstep 1 (.objectSep []) (pInit (strBytes ",\x7d")) =
      some (.error (NewParseError (strBytes "trailing comma not allowed")
        (nextTokenP (pInit (strBytes ",\x7d"))).cur)) ∧
    pstep 1 (.arraySep []) (pInit (strBytes ",]")) =
      some (.error (NewParseError (strBytes "trailing comma not allowed")
        (nextTokenP (pInit (strBytes ",]"))).cur)) :=
  ⟨C5_trailing_comma_amended.1 0 [] _ (by decide) (by decide),
   C5_trailing_comma_amended.2.1 0 [] _ (by decide) (by decide)⟩

/-!  Claim C1: number conversion, integers first, floats second. -/

/-- C1 counterexample: 1e999 is a Number token the lexer accepts without
error, yet its parse does not produce a Float value: strconv.ParseFloat
reports a range error for it, so parseNumber fails with "invalid number
format". -/
theorem C1_number_conversion_counterexample :
    (readNumber (strBytes "1e999") ⟨1, 1, 0⟩).tok.ttype = .NUMBER ∧
    (readNumber (strBytes "1e999") ⟨1, 1, 0⟩).err = none ∧
    parseErrMsg (ParseBytes (strBytes "\x7b\x22n\x22:1e999\x7d")) =
      some (strBytes "invalid number format") := ⟨rfl, rfl, rfl⟩

/-- C1 (amended): parseNumber converts a Number token by attempting a
64-bit signed integer interpretation first (123 stays Integer, and so
does the largest int64), falling through to the float64 interpretation
when that fails (123.45, 1E+10, and the first integer past the int64
range), and failing with SyntaxError "invalid number format" when the
float conversion fails as well (the range error at 1e999).  The val
conjuncts identify the exact fraction payloads with the claim values
123.45 and 1e10. -/
theorem C1_number_conversion_amended :
    ParseBytes (strBytes "\x7b\x22n\x22:123\x7d") =
      some (.ok (.object [(strBytes "n", .int 123)])) ∧
    ParseBytes (strBytes "\x7b\x22n\x22:123.45\x7d") =
      some (.ok (.object [(strBytes "n", .float ⟨12345, 100⟩)])) ∧
    GoFloat.val ⟨12345, 100⟩ = 123.45 ∧
    ParseBytes (strBytes "\x7b\x22n\x22:1E+10\x7d") =
      some (.ok (.object [(strBytes "n", .float ⟨10000000000, 1⟩)])) ∧
    GoFloat.val ⟨10000000000, 1⟩ = 1e10 ∧
    ParseBytes (strBytes "\x7b\x22n\x22:9223372036854775807\x7d") =
      some (.ok (.object [(strBytes "n", .int 9223372036854775807)])) ∧
    ParseBytes (strBytes "\x7b\x22n\x22:9223372036854775808\x7d") =
      some (.ok (.object [(strBytes "n", .float ⟨9223372036854775808, 1⟩)])) ∧
    parseErrMsg (ParseBytes (strBytes "\x7b\x22n\x22:1e999\x7d")) =
      some (strBytes "invalid number format") :=
  ⟨rfl, rfl, by norm_num [GoFloat.val], rfl, by norm_num [GoFloat.val], rfl, rfl, rfl⟩

/-!  Claim C7: the snippet rendering. -/

/-- The rendering the spec describes, stated from its words: the source
line at Position.line prefixed with the line number, a newline, then
spaces sized to the prefix plus column minus one, then a caret. -/
def specSnippet (e : ParseError) : GoStr :=
  let lines := splitOnNL e.sourceInput
  let line := lines.getD (e.pos.line - 1) []
  let pre := natDigits e.pos.line ++ strBytes "| "
  pre ++ line ++ [10] ++ List.replicate (pre.length + (e.pos.col - 1)) 32 ++ [94]

/-- C7 counterexample: a ParseError whose position column (3) exceeds the
length of its source line (2): the code renders the pointer line without
any caret, while the claim rendering always ends with a caret.  Such
errors arise whenever the failure is at end of input, one column past the
line. -/
theorem C7_caret_dropped_counterexample :
    (NewDetailedParseError .SyntaxError (strBytes "expected \x27,\x27 or \x27\x7d\x27")
        ⟨.EOF, [], ⟨1, 3, 2⟩⟩ [] [] (strBytes "\x7b\x7d")).jsonSnippet =
      strBytes "1| \x7b\x7d\n   " ∧
    specSnippet (NewDetailedParseError .SyntaxError (strBytes "expected \x27,\x27 or \x27\x7d\x27")
        ⟨.EOF, [], ⟨1, 3, 2⟩⟩ [] [] (strBytes "\x7b\x7d")) =
      strBytes "1| \x7b\x7d\n     ^" ∧
    strBytes "1| \x7b\x7d\n   " ≠ strBytes "1| \x7b\x7d\n     ^" := ⟨rfl, rfl, by decide⟩

/-- C7 (amended): for every ParseError with non-empty source whose line
denotes an existing line, the rendered snippet reproduces the rendering
described by the spec exactly when 1 <= column <= length of that line;
otherwise the pointer line is only the prefix-width spaces, with no
caret. -/
theorem C7_snippet_amended :
    ∀ e : ParseError, e.sourceInput ≠ [] → 1 ≤ e.pos.line →
      e.pos.line ≤ (splitOnNL e.sourceInput).length →
      ((0 < e.pos.col ∧
          e.pos.col ≤ ((splitOnNL e.sourceInput).getD (e.pos.line - 1) []).length) →
        generateJSONSnippet e = specSnippet e) ∧
      (¬ (0 < e.pos.col ∧
          e.pos.col ≤ ((splitOnNL e.sourceInput).getD (e.pos.line - 1) []).length) →
        generateJSONSnippet e =
          (natDigits e.pos.line ++ strBytes "| ") ++
            (splitOnNL e.sourceInput).getD (e.pos.line - 1) [] ++ [10] ++
            List.replicate (natDigits e.pos.line ++ strBytes "| ").length 32) := by
  intro e h1 h2 h3
  have hline : ¬ (e.pos.line < 1 || (splitOnNL e.sourceInput).length < e.pos.line) = true := by
    simp only [Bool.or_eq_true, decide_eq_true_eq, not_or]
    omega
  constructor
  · intro hc
    have hcb : (0 < e.pos.col &&
        e.pos.col ≤ ((splitOnNL e.sourceInput).getD (e.pos.line - 1) []).length) = true := by
      simp only [Bool.and_eq_true, decide_eq_true_eq]
      exact hc
    unfold generateJSONSnippet specSnippet
    rw [if_neg h1, if_neg hline]
    simp only [hcb, if_true, List.replicate_add, List.append_assoc]
  · intro hc
    have hcb : (0 < e.pos.col &&
        e.pos.col ≤ ((splitOnNL e.sourceInput).getD (e.pos.line - 1) []).length) = false := by
      cases hxx : (0 < e.pos.col &&
          e.pos.col ≤ ((splitOnNL e.sourceInput).getD (e.pos.line - 1) []).length) with
      | false => rfl
      | true =>
        rw [Bool.and_eq_true] at hxx
        exact absurd ⟨by simpa using hxx.1, by simpa using hxx.2⟩ hc
    unfold generateJSONSnippet
    rw [if_neg h1, if_neg hline]
    simp only [hcb, if_false, Bool.false_eq_true, List.append_assoc]

/-- C7 witness: the amended statement evaluated on two concrete errors
over the two-byte source, one with the column inside the line (the spec
rendering), one past it (no caret). -/
theorem C7_snippet_amended_witness :
    generateJSONSnippet
        ⟨.SyntaxError, [], ⟨1, 2, 1⟩, zeroToken, [], [], [], [], strBytes "\x7b\x7d"⟩ =
      specSnippet
        ⟨.SyntaxError, [], ⟨1, 2, 1⟩, zeroToken, [], [], [], [], strBytes "\x7b\x7d"⟩ ∧
    generateJSONSnippet
        ⟨.SyntaxError, [], ⟨1, 3, 2⟩, zeroToken, [], [], [], [], strBytes "\x7b\x7d"⟩ =
      strBytes "1| \x7b\x7d\n   " := by
  constructor
  · exact (C7_snippet_amended _ (by decide) (by decide) (by decide)).1 (by decide)
  · have h := (C7_snippet_amended
      ⟨.SyntaxError, [], ⟨1, 3, 2⟩, zeroToken, [], [], [], [], strBytes "\x7b\x7d"⟩
      (by decide) (by decide) (by decide)).2 (by decide)
    rw [h]
    decide

/-!  Claim C3: classification of lexer failures. -/

/-- C3 counterexample: the input consisting of a quote and three letters
contains an unterminated string, and the lexer reports exactly that; but
the error the parse returns is classified SyntaxError, not LexicalError,
because the basic constructor NewParseError used by parser.go hardcodes
the Syntax classification for the synthetic Invalid token. -/
theorem C3_syntax_not_lexical_counterexample :
    (lexNextToken (lexInit (strBytes "\x22abc"))).2.2 = some (msgUnterminated ⟨1, 1, 0⟩) ∧
    parseErrType (ParseBytes (strBytes "\x22abc")) = some .SyntaxError ∧
    ErrType.SyntaxError ≠ ErrType.LexicalError := ⟨rfl, rfl, by decide⟩

theorem parseNumberStep_err (p : PState) (e : ParseError)
    (h : parseNumberStep p = .error e) : e.etype = .SyntaxError := by
  simp only [parseNumberStep] at h
  split at h
  · exact absurd h (by simp)
  · split at h
    · exact absurd h (by simp)
    · exact (Except.error.inj h) ▸ rfl

theorem parseBooleanStep_err (p : PState) (e : ParseError)
    (h : parseBooleanStep p = .error e) : e.etype = .SyntaxError := by
  simp only [parseBooleanStep] at h
  split at h
  · exact absurd h (by simp)
  · split at h
    · exact absurd h (by simp)
    · exact (Except.error.inj h) ▸ rfl

theorem parseNullStep_err (p : PState) (e : ParseError)
    (h : parseNullStep p = .error e) : e.etype = .SyntaxError := by
  simp only [parseNullStep] at h
  split at h
  · exact absurd h (by simp)
  · exact (Except.error.inj h) ▸ rfl

/-- Every error the recursive descent produces is built by NewParseError,
whose classification is SyntaxError; in particular no parser error ever
carries the Lexical classification, whatever the input. -/
theorem pstep_err_etype : ∀ (fuel : Nat) (fr : PFrame) (p : PState) (e : ParseError),
    pstep fuel fr p = some (.error e) → e.etype = .SyntaxError := by
  intro fuel
  induction fuel with
  | zero => intro fr p e h; simp [pstep] at h
  | succ n ih =>
    intro fr p e h
    cases fr with
    | value =>
      simp only [pstep] at h
      split at h
      · exact ih _ _ _ h
      · exact ih _ _ _ h
      · exact absurd h (by simp)
      · exact parseNumberStep_err _ _ (Option.some.inj h)
      · exact parseBooleanStep_err _ _ (Option.some.inj h)
      · exact parseNullStep_err _ _ (Option.some.inj h)
      · exact (Except.error.inj (Option.some.inj h)) ▸ rfl
      · exact (Except.error.inj (Option.some.inj h)) ▸ rfl
    | objectStart =>
      simp only [pstep] at h
      split at h
      · exact (Except.error.inj (Option.some.inj h)) ▸ rfl
      · split at h
        · exact (Except.error.inj (Option.some.inj h)) ▸ rfl
        · split at h
          · exact absurd h (by simp)
          · exact ih _ _ _ h
    | objectMember obj =>
      simp only [pstep] at h
      split at h
      · exact (Except.error.inj (Option.some.inj h)) ▸ rfl
      · split at h
        · exact (Except.error.inj (Option.some.inj h)) ▸ rfl
        · split at h
          · exact absurd h (by simp)
          · rename_i e2 heq
            exact (Except.error.inj (Option.some.inj h)) ▸ ih _ _ _ heq
          · exact ih _ _ _ h
    | objectSep obj =>
      simp only [pstep] at h
      split at h
      · exact absurd h (by simp)
      · split at h
        · split at h
          · exact (Except.error.inj (Option.some.inj h)) ▸ rfl
          · exact ih _ _ _ h
        · exact (Except.error.inj (Option.some.inj h)) ▸ rfl
    | arrayStart =>
      simp only [pstep] at h
      split at h
      · exact (Except.error.inj (Option.some.inj h)) ▸ rfl
      · split at h
        · exact (Except.error.inj (Option.some.inj h)) ▸ rfl
        · split at h
          · exact absurd h (by simp)
          · exact ih _ _ _ h
    | arrayElem arr =>
      simp only [pstep] at h
      split at h
      · exact absurd h (by simp)
      · rename_i e2 heq
        exact (Except.error.inj (Option.some.inj h)) ▸ ih _ _ _ heq
      · exact ih _ _ _ h
    | arraySep arr =>
      simp only [pstep] at h
      split at h
      · exact absurd h (by simp)
      · split at h
        · split at h
          · exact (Except.error.inj (Option.some.inj h)) ▸ rfl
          · exact ih _ _ _ h
        · exact (Except.error.inj (Option.some.inj h)) ▸ rfl

/-- C3 (amended): no error returned by the parser is ever classified
Lexical: for every fuel, frame, state and error, the classification is
SyntaxError, because the basic constructor NewParseError used throughout
parser.go hardcodes it (first two conjuncts).  Inputs with unterminated
strings or invalid escape sequences still fail with such
Syntax-classified errors: the lexer diagnoses the lexical failure (third
and last conjuncts show its unterminated-string and invalid-escape
reports), parser.go wraps it in a synthetic Invalid token, and the
message of the resulting error is determined by the syntactic context
where that token appears, not by the lexical diagnosis: the unterminated
string at value position fails with "expected JSON value" while the one
at key position fails with "expected string key". -/
theorem C3_lexer_errors_surface_as_syntax :
    (∀ (fuel : Nat) (fr : PFrame) (p : PState) (e : ParseError),
        pstep fuel fr p = some (.error e) → e.etype = .SyntaxError) ∧
    (∀ (fuel : Nat) (p : PState) (e : ParseError),
        Parse fuel p = some (.error e) → e.etype = .SyntaxError) ∧
    (lexNextToken (lexInit (strBytes "\x22abc"))).2.2 = some (msgUnterminated ⟨1, 1, 0⟩) ∧
    parseErrType (ParseBytes (strBytes "\x22abc")) = some .SyntaxError ∧
    parseErrMsg (ParseBytes (strBytes "\x22abc")) = some (strBytes "expected JSON value") ∧
    parseErrType (ParseBytes (strBytes "\x7b\x22k")) = some .SyntaxError ∧
    parseErrMsg (ParseBytes (strBytes "\x7b\x22k")) =
      some (strBytes "expected string key") ∧
    parseErrType (ParseBytes (strBytes "\x7b\x22a\x22:\x22b\\qc\x22\x7d")) =
      some .SyntaxError ∧
    (readString (strBytes "\x22b\\qc\x22") ⟨1, 1, 0⟩).err =
      some (msgInvalidEscape 113 ⟨1, 4, 3⟩) := by
  refine ⟨pstep_err_etype, ?_, rfl, rfl, rfl, rfl, rfl, rfl, rfl⟩
  intro fuel p e h
  unfold Parse at h
  split at h
  · exact absurd h (by simp)
  · rename_i e2 heq
    exact (Except.error.inj (Option.some.inj h)) ▸ pstep_err_etype _ _ _ _ heq
  · split at h
    · exact absurd h (by simp)
    · exact (Except.error.inj (Option.some.inj h)) ▸ rfl

/-- C3 witness: the universal classification applied to the parse of the
unterminated string input at its first frame. -/
theorem C3_lexer_errors_surface_as_syntax_witness :
    (NewParseError (strBytes "expected JSON value")
      (pInit (strBytes "\x22abc")).cur).etype = .SyntaxError :=
  C3_lexer_errors_surface_as_syntax.1 1 .value (pInit (strBytes "\x22abc")) _ rfl

/-!  Claim C6: the number grammar of readNumber. -/

/-- The shape of a conforming JSON number literal: optional minus,
integer digits, optional fraction digits, optional exponent (marker byte,
optional sign byte, digits). -/
structure NumLit where
  neg : Bool
  ip : GoStr
  fracp : Option GoStr
  expp : Option (Nat × GoStr × GoStr)

/-- Well-formedness of the shape per the JSON number grammar: nonempty
integer digits with no leading zero, nonempty fraction digits when a
fraction is present, a lowercase or uppercase exponent marker with an
optional single sign byte and nonempty digits when an exponent is
present. -/
def numValid (n : NumLit) : Prop :=
  n.ip ≠ [] ∧ (∀ c ∈ n.ip, isDigit c = true) ∧ (headByte n.ip = 48 → n.ip = [48]) ∧
  (∀ f ∈ n.fracp, f ≠ [] ∧ ∀ c ∈ f, isDigit c = true) ∧
  (∀ x ∈ n.expp, (x.1 = 101 ∨ x.1 = 69) ∧ (x.2.1 = [] ∨ x.2.1 = [43] ∨ x.2.1 = [45]) ∧
    x.2.2 ≠ [] ∧ ∀ c ∈ x.2.2, isDigit c = true)

/-- The text of the literal. -/
def numRender (n : NumLit) : GoStr :=
  (if n.neg then [45] else []) ++ n.ip ++
  (match n.fracp with | none => [] | some f => 46 :: f) ++
  (match n.expp with | none => [] | some x => x.1 :: (x.2.1 ++ x.2.2))

/-- The byte after the literal must not extend it: never a digit, not a
decimal point when neither fraction nor exponent is present, and not an
exponent marker when no exponent is present. -/
def numFollowOK (n : NumLit) (c : Nat) : Prop :=
  isDigit c = false ∧
  (n.fracp = none → n.expp = none → c ≠ 46) ∧
  (n.expp = none → c ≠ 101 ∧ c ≠ 69)

theorem headByte_append (l r : GoStr) (h : l ≠ []) : headByte (l ++ r) = headByte l := by
  cases l with
  | nil => exact absurd rfl h
  | cons c t => rfl

theorem headByte_nil : headByte [] = 0 := rfl

theorem headByte_cons (c : Nat) (l : GoStr) : headByte (c :: l) = c := rfl

theorem numExp_no_marker (sp : Position) (v rest : GoStr) (p : Position)
    (h1 : headByte rest ≠ 101) (h2 : headByte rest ≠ 69) :
    numExp sp v rest p = ⟨⟨.NUMBER, v, sp⟩, none, rest, p⟩ := by
  simp [numExp, h1, h2]

theorem numExp_err (sp : Position) (v : GoStr) (e : Nat) (sg r : GoStr) (p : Position)
    (he : e = 101 ∨ e = 69)
    (hsg : (sg = [] ∧ headByte r ≠ 43 ∧ headByte r ≠ 45) ∨ sg = [43] ∨ sg = [45])
    (hr : isDigit (headByte r) = false) :
    numExp sp v (e :: (sg ++ r)) p =
      ⟨⟨.INVALID, v ++ e :: sg, sp⟩, some (msgMissingExpDigits sp), r,
        advanceList (e :: sg) p⟩ := by
  rcases hsg with ⟨rfl, h43, h45⟩ | rfl | rfl
  · rcases he with rfl | rfl <;> simp [numExp, headByte_cons, h43, h45, hr, advanceList]
  · rcases he with rfl | rfl <;> simp [numExp, headByte_cons, hr, advanceList]
  · rcases he with rfl | rfl <;> simp [numExp, headByte_cons, hr, advanceList]

theorem numExp_marker (sp : Position) (v : GoStr) (e : Nat) (sg ds rest : GoStr)
    (p : Position) (he : e = 101 ∨ e = 69) (hsg : sg = [] ∨ sg = [43] ∨ sg = [45])
    (hds : ds ≠ []) (hdig : ∀ c ∈ ds, isDigit c = true)
    (hf : isDigit (headByte rest) = false) :
    numExp sp v (e :: (sg ++ (ds ++ rest))) p =
      ⟨⟨.NUMBER, v ++ e :: (sg ++ ds), sp⟩, none, rest,
        advanceList (e :: (sg ++ ds)) p⟩ := by
  obtain ⟨d, ds', rfl⟩ := List.exists_cons_of_ne_nil hds
  have hd : isDigit d = true := hdig d (by simp)
  have hb := isDigit_bounds hd
  have h43 : d ≠ 43 := by omega
  have h45 : d ≠ 45 := by omega
  have hrun : ∀ p', digitRun [] (d :: (ds' ++ rest)) p' =
      (d :: ds', rest, advanceList (d :: ds') p') := by
    intro p'
    simpa using digitRun_append (d :: ds') [] rest p' hdig hf
  rcases hsg with rfl | rfl | rfl <;> rcases he with rfl | rfl <;>
    simp [numExp, headByte_cons, h43, h45, hd, hrun, advanceList]

theorem numFrac_none (sp : Position) (v rest : GoStr) (p : Position)
    (h : headByte rest ≠ 46) : numFrac sp v rest p = numExp sp v rest p := by
  simp [numFrac, h]

theorem numFrac_err (sp : Position) (v r : GoStr) (p : Position)
    (hr : isDigit (headByte r) = false) :
    numFrac sp v (46 :: r) p =
      ⟨⟨.INVALID, v ++ [46], sp⟩, some (msgMissingFracDigits sp), r, advancePos 46 p⟩ := by
  simp [numFrac, headByte_cons, hr]

theorem numFrac_run (sp : Position) (v f rest2 : GoStr) (p : Position)
    (hf : f ≠ []) (hdig : ∀ c ∈ f, isDigit c = true)
    (hr : isDigit (headByte rest2) = false) :
    numFrac sp v (46 :: (f ++ rest2)) p =
      numExp sp (v ++ 46 :: f) rest2 (advanceList (46 :: f) p) := by
  obtain ⟨d, f', rfl⟩ := List.exists_cons_of_ne_nil hf
  have hd : isDigit d = true := hdig d (by simp)
  have hrun : ∀ p', digitRun [] (d :: (f' ++ rest2)) p' =
      (d :: f', rest2, advanceList (d :: f') p') := by
    intro p'
    simpa using digitRun_append (d :: f') [] rest2 p' hdig hr
  simp [numFrac, headByte_cons, hd, hrun, advanceList]

theorem numInt_run (sp : Position) (v ip rest2 : GoStr) (p : Position)
    (hip : ip ≠ []) (hdig : ∀ c ∈ ip, isDigit c = true)
    (hlead : headByte ip = 48 → ip = [48])
    (hr : isDigit (headByte rest2) = false) :
    numInt sp v (ip ++ rest2) p = numFrac sp (v ++ ip) rest2 (advanceList ip p) := by
  obtain ⟨d, ip', rfl⟩ := List.exists_cons_of_ne_nil hip
  by_cases h48 : d = 48
  · subst h48
    have h1 : ip' = [] := by simpa using hlead (by simp only [headByte_cons])
    subst h1
    simp [numInt, headByte_cons, hr, advanceList]
  · have hd : isDigit d = true := hdig d (by simp)
    have hrun : ∀ p', digitRun v (d :: (ip' ++ rest2)) p' =
        (v ++ d :: ip', rest2, advanceList (d :: ip') p') := by
      intro p'
      simpa using digitRun_append (d :: ip') v rest2 p' hdig hr
    simp [numInt, headByte_cons, h48, hrun, advanceList]

theorem readNumber_entry (neg : Bool) (body : GoStr) (p : Position)
    (h45 : headByte body ≠ 45) (hdig : neg = true → isDigit (headByte body) = true) :
    readNumber ((if neg then [45] else []) ++ body) p =
      numInt p (if neg then [45] else []) body
        (advanceList (if neg then [45] else []) p) := by
  cases neg with
  | false => simp [readNumber, h45, advanceList]
  | true => simp [readNumber, headByte_cons, hdig rfl, advanceList]

theorem isDigit_headByte_cons_digits (ip : GoStr) (rest : GoStr) (hip : ip ≠ [])
    (hdig : ∀ c ∈ ip, isDigit c = true) :
    headByte (ip ++ rest) ≠ 45 ∧ isDigit (headByte (ip ++ rest)) = true := by
  obtain ⟨d, ip', rfl⟩ := List.exists_cons_of_ne_nil hip
  have hd : isDigit d = true := hdig d (by simp)
  have hb := isDigit_bounds hd
  refine ⟨?_, ?_⟩
  · show d ≠ 45
    omega
  · exact hd

/-- C6 (confirmed), the five clauses of the claim in order: a leading
minus not followed by a digit fails with "invalid number format"; a first
digit 0 followed by another digit fails with "numbers cannot have leading
zeros" (with or without the minus); a decimal point not followed by a
digit fails with "invalid number format: missing digits after decimal
point"; an exponent marker, optionally signed, not followed by a digit
fails with "invalid number format: missing digits in exponent"; and every
conforming number followed by a non-extending byte is accepted as a
single NUMBER token whose text is exactly the consumed bytes, the cursor
resting immediately after them.  Each failure carries the lexer error
(the LexicalError of the spec taxonomy) reported at the number's start
position. -/
theorem C6_number_grammar :
    (∀ (r : GoStr) (p : Position), isDigit (headByte r) = false →
      readNumber (45 :: r) p =
        ⟨⟨.INVALID, [45], p⟩, some (msgInvalidNumber p), r, advancePos 45 p⟩) ∧
    (∀ (neg : Bool) (r : GoStr) (p : Position), isDigit (headByte r) = true →
      readNumber ((if neg then [45] else []) ++ 48 :: r) p =
        ⟨⟨.INVALID, (if neg then [45] else []) ++ [48], p⟩, some (msgLeadingZeros p), r,
          advanceList ((if neg then [45] else []) ++ [48]) p⟩) ∧
    (∀ (neg : Bool) (ip r : GoStr) (p : Position), ip ≠ [] →
      (∀ c ∈ ip, isDigit c = true) → (headByte ip = 48 → ip = [48]) →
      isDigit (headByte r) = false →
      readNumber ((if neg then [45] else []) ++ ip ++ 46 :: r) p =
        ⟨⟨.INVALID, (if neg then [45] else []) ++ ip ++ [46], p⟩,
          some (msgMissingFracDigits p), r,
          advanceList ((if neg then [45] else []) ++ ip ++ [46]) p⟩) ∧
    (∀ (neg : Bool) (ip : GoStr) (fracp : Option GoStr) (e : Nat) (sg r : GoStr)
        (p : Position), ip ≠ [] →
      (∀ c ∈ ip, isDigit c = true) → (headByte ip = 48 → ip = [48]) →
      (∀ f ∈ fracp, f ≠ [] ∧ ∀ c ∈ f, isDigit c = true) →
      (e = 101 ∨ e = 69) →
      ((sg = [] ∧ headByte r ≠ 43 ∧ headByte r ≠ 45) ∨ sg = [43] ∨ sg = [45]) →
      isDigit (headByte r) = false →
      readNumber ((if neg then [45] else []) ++ ip ++
          (match fracp with | none => [] | some f => 46 :: f) ++ e :: (sg ++ r)) p =
        ⟨⟨.INVALID, (if neg then [45] else []) ++ ip ++
            (match fracp with | none => [] | some f => 46 :: f) ++ e :: sg, p⟩,
          some (msgMissingExpDigits p), r,
          advanceList ((if neg then [45] else []) ++ ip ++
            (match fracp with | none => [] | some f => 46 :: f) ++ e :: sg) p⟩) ∧
    (∀ (n : NumLit) (rest : GoStr) (p : Position), numValid n →
      numFollowOK n (headByte rest) →
      readNumber (numRender n ++ rest) p =
        ⟨⟨.NUMBER, numRender n, p⟩, none, rest, advanceList (numRender n) p⟩) := by
  refine ⟨?_, ?_, ?_, ?_, ?_⟩
  · intro r p h
    simp [readNumber, headByte_cons, h]
  · intro neg r p h
    have h48 : isDigit 48 = true := by decide
    cases neg with
    | false => simp [readNumber, numInt, headByte_cons, h, advanceList]
    | true => simp [readNumber, numInt, headByte_cons, h, h48, advanceList]
  · intro neg ip r p hip hdig hlead hr
    have hh := isDigit_headByte_cons_digits ip (46 :: r) hip hdig
    rw [show (if neg then [45] else []) ++ ip ++ 46 :: r =
        (if neg then [45] else []) ++ (ip ++ 46 :: r) from by simp,
      readNumber_entry neg _ p hh.1 (fun _ => hh.2),
      numInt_run p _ ip (46 :: r) _ hip hdig hlead (by simp only [headByte_cons]; decide),
      numFrac_err p _ r _ hr]
    simp [advanceList_append, advanceList, List.append_assoc]
  · intro neg ip fracp e sg r p hip hdig hlead hfr he hsg hr
    have hene : headByte (e :: (sg ++ r)) ≠ 46 ∧
        isDigit (headByte (e :: (sg ++ r))) = false := by
      rcases he with rfl | rfl <;> simp [headByte_cons, isDigit]
    cases fracp with
    | none =>
      have hh := isDigit_headByte_cons_digits ip (e :: (sg ++ r)) hip hdig
      rw [show (if neg then [45] else []) ++ ip ++ [] ++ e :: (sg ++ r) =
          (if neg then [45] else []) ++ (ip ++ e :: (sg ++ r)) from by simp,
        readNumber_entry neg _ p hh.1 (fun _ => hh.2),
        numInt_run p _ ip (e :: (sg ++ r)) _ hip hdig hlead hene.2,
        numFrac_none p _ _ _ hene.1,
        numExp_err p _ e sg r _ he hsg hr]
      simp [advanceList_append, advanceList, List.append_assoc]
    | some f =>
      obtain ⟨hfne, hfdig⟩ := hfr f rfl
      have hh := isDigit_headByte_cons_digits ip (46 :: (f ++ e :: (sg ++ r))) hip hdig
      rw [show (if neg then [45] else []) ++ ip ++ 46 :: f ++ e :: (sg ++ r) =
          (if neg then [45] else []) ++ (ip ++ 46 :: (f ++ e :: (sg ++ r))) from by simp,
        readNumber_entry neg _ p hh.1 (fun _ => hh.2),
        numInt_run p _ ip (46 :: (f ++ e :: (sg ++ r))) _ hip hdig hlead
          (by simp only [headByte_cons]; decide),
        numFrac_run p _ f (e :: (sg ++ r)) _ hfne hfdig hene.2,
        numExp_err p _ e sg r _ he hsg hr]
      simp [advanceList_append, advanceList, List.append_assoc]
  · intro n rest p hv hf
    obtain ⟨hip, hdig, hlead, hfr, hex⟩ := hv
    obtain ⟨hf1, hf2, hf3⟩ := hf
    cases hfc : n.fracp with
    | none =>
      cases hec : n.expp with
      | none =>
        have hh := isDigit_headByte_cons_digits n.ip rest hip hdig
        have hee := hf3 hec
        rw [show numRender n ++ rest = (if n.neg then [45] else []) ++ (n.ip ++ rest)
            from by simp [numRender, hfc, hec],
          readNumber_entry n.neg _ p hh.1 (fun _ => hh.2),
          numInt_run p _ n.ip rest _ hip hdig hlead hf1,
          numFrac_none p _ _ _ (hf2 hfc hec),
          numExp_no_marker p _ _ _ hee.1 hee.2]
        simp [numRender, hfc, hec, advanceList_append, advanceList, List.append_assoc]
      | some x =>
        obtain ⟨hxe, hxsg, hxds, hxdig⟩ := hex x hec
        have hene : headByte (x.1 :: (x.2.1 ++ (x.2.2 ++ rest))) ≠ 46 ∧
            isDigit (headByte (x.1 :: (x.2.1 ++ (x.2.2 ++ rest)))) = false := by
          rcases hxe with hxe | hxe <;> simp [hxe, headByte_cons, isDigit]
        have hh := isDigit_headByte_cons_digits n.ip
          (x.1 :: (x.2.1 ++ (x.2.2 ++ rest))) hip hdig
        rw [show numRender n ++ rest = (if n.neg then [45] else []) ++
            (n.ip ++ (x.1 :: (x.2.1 ++ (x.2.2 ++ rest))))
            from by simp [numRender, hfc, hec, List.append_assoc],
          readNumber_entry n.neg _ p hh.1 (fun _ => hh.2),
          numInt_run p _ n.ip (x.1 :: (x.2.1 ++ (x.2.2 ++ rest))) _ hip hdig hlead hene.2,
          numFrac_none p _ _ _ hene.1,
          numExp_marker p _ x.1 x.2.1 x.2.2 rest _ hxe hxsg hxds hxdig hf1]
        simp [numRender, hfc, hec, advanceList_append, advanceList, List.append_assoc]
    | some f =>
      obtain ⟨hfne, hfdig⟩ := hfr f hfc
      cases hec : n.expp with
      | none =>
        have hee := hf3 hec
        have hh := isDigit_headByte_cons_digits n.ip (46 :: (f ++ rest)) hip hdig
        rw [show numRender n ++ rest = (if n.neg then [45] else []) ++
            (n.ip ++ (46 :: (f ++ rest)))
            from by simp [numRender, hfc, hec, List.append_assoc],
          readNumber_entry n.neg _ p hh.1 (fun _ => hh.2),
          numInt_run p _ n.ip (46 :: (f ++ rest)) _ hip hdig hlead
            (by simp only [headByte_cons]; decide),
          numFrac_run p _ f rest _ hfne hfdig hf1,
          numExp_no_marker p _ _ _ hee.1 hee.2]
        simp [numRender, hfc, hec, advanceList_append, advanceList, List.append_assoc]
      | some x =>
        obtain ⟨hxe, hxsg, hxds, hxdig⟩ := hex x hec
        have hene : isDigit (headByte (x.1 :: (x.2.1 ++ (x.2.2 ++ rest)))) = false := by
          rcases hxe with hxe | hxe <;> simp [hxe, headByte_cons, isDigit]
        have hh := isDigit_headByte_cons_digits n.ip
          (46 :: (f ++ (x.1 :: (x.2.1 ++ (x.2.2 ++ rest))))) hip hdig
        rw [show numRender n ++ rest = (if n.neg then [45] else []) ++
            (n.ip ++ (46 :: (f ++ (x.1 :: (x.2.1 ++ (x.2.2 ++ rest))))))
            from by simp [numRender, hfc, hec, List.append_assoc],
          readNumber_entry n.neg _ p hh.1 (fun _ => hh.2),
          numInt_run p _ n.ip (46 :: (f ++ (x.1 :: (x.2.1 ++ (x.2.2 ++ rest))))) _ hip
            hdig hlead (by simp only [headByte_cons]; decide),
          numFrac_run p _ f (x.1 :: (x.2.1 ++ (x.2.2 ++ rest))) _ hfne hfdig hene,
          numExp_marker p _ x.1 x.2.1 x.2.2 rest _ hxe hxsg hxds hxdig hf1]
        simp [numRender, hfc, hec, advanceList_append, advanceList, List.append_assoc]

/-- C6 witness: each clause of the grammar theorem evaluated on a
concrete input: -x, 01, -01, 1.x, 1e+x, and the conforming literal
-12.30e+45 followed by a comma, scanned into exactly that NUMBER token. -/
theorem C6_number_grammar_witness :
    readNumber (strBytes "-x") ⟨1, 1, 0⟩ =
      ⟨⟨.INVALID, [45], ⟨1, 1, 0⟩⟩, some (msgInvalidNumber ⟨1, 1, 0⟩),
        [120], ⟨1, 2, 1⟩⟩ ∧
    readNumber (strBytes "01") ⟨1, 1, 0⟩ =
      ⟨⟨.INVALID, [48], ⟨1, 1, 0⟩⟩, some (msgLeadingZeros ⟨1, 1, 0⟩), [49], ⟨1, 2, 1⟩⟩ ∧
    readNumber (strBytes "-01") ⟨1, 1, 0⟩ =
      ⟨⟨.INVALID, [45, 48], ⟨1, 1, 0⟩⟩, some (msgLeadingZeros ⟨1, 1, 0⟩), [49], ⟨1, 3, 2⟩⟩ ∧
    readNumber (strBytes "1.x") ⟨1, 1, 0⟩ =
      ⟨⟨.INVALID, [49, 46], ⟨1, 1, 0⟩⟩, some (msgMissingFracDigits ⟨1, 1, 0⟩),
        [120], ⟨1, 3, 2⟩⟩ ∧
    readNumber (strBytes "1e+x") ⟨1, 1, 0⟩ =
      ⟨⟨.INVALID, [49, 101, 43], ⟨1, 1, 0⟩⟩, some (msgMissingExpDigits ⟨1, 1, 0⟩),
        [120], ⟨1, 4, 3⟩⟩ ∧
    readNumber (strBytes "-12.30e+45,") ⟨1, 1, 0⟩ =
      ⟨⟨.NUMBER, strBytes "-12.30e+45", ⟨1, 1, 0⟩⟩, none, [44], ⟨1, 11, 10⟩⟩ := by
  refine ⟨?_, ?_, ?_, ?_, ?_, ?_⟩
  · exact C6_number_grammar.1 [120] ⟨1, 1, 0⟩ (by decide)
  · exact C6_number_grammar.2.1 false [49] ⟨1, 1, 0⟩ (by decide)
  · exact C6_number_grammar.2.1 true [49] ⟨1, 1, 0⟩ (by decide)
  · exact C6_number_grammar.2.2.1 false [49] [120] ⟨1, 1, 0⟩ (by decide) (by decide)
      (by decide) (by decide)
  · have h := C6_number_grammar.2.2.2.1 false [49] none 101 [43] [120] ⟨1, 1, 0⟩
      (by decide) (by decide) (by decide) (by simp) (by decide) (by simp) (by decide)
    simpa using h
  · have h := C6_number_grammar.2.2.2.2 ⟨true, [49, 50], some [51, 48],
      some (101, [43], [52, 53])⟩ [44] ⟨1, 1, 0⟩
      (by refine ⟨by decide, by decide, by decide, ?_, ?_⟩ <;> intro z hz <;>
        simp at hz <;> subst hz <;> exact ⟨by decide, by decide⟩)
      (by exact ⟨by decide, by decide, by decide⟩)
    simpa [numRender] using h

/-!  Claim C10: BOOLEAN and NULL tokens carry canonical values. -/

/-- The invariant of claim C10 on a token: a BOOLEAN token carries
exactly "true" or "false" and a NULL token carries exactly "null". -/
def keywordTokOK (t : Token) : Prop :=
  (t.ttype = .BOOLEAN → t.value = strBytes "true" ∨ t.value = strBytes "false") ∧
  (t.ttype = .NULL → t.value = strBytes "null")

theorem keywordTokOK_of_ne {t : Token} (h1 : t.ttype ≠ .BOOLEAN) (h2 : t.ttype ≠ .NULL) :
    keywordTokOK t :=
  ⟨fun hb => absurd hb h1, fun hn => absurd hn h2⟩

theorem strLoop_ttype (sp : Position) (fuel : Nat) (acc rest : GoStr) (p : Position) :
    (readStringLoop sp fuel acc rest p).tok.ttype = .STRING ∨
    (readStringLoop sp fuel acc rest p).tok.ttype = .INVALID := by
  induction fuel generalizing acc rest p with
  | zero => exact Or.inr rfl
  | succ n ih =>
    rw [readStringLoop]
    by_cases h1 : headByte rest = 34
    · rw [if_pos h1]
      exact Or.inl rfl
    · rw [if_neg h1]
      by_cases h2 : headByte rest = 0
      · rw [if_pos h2]
        exact Or.inr rfl
      · rw [if_neg h2]
        by_cases h3 : headByte rest = 92
        · rw [if_pos h3]
          by_cases h4 : headByte (List.tail rest) = 0
          · rw [if_pos h4]
            exact Or.inr rfl
          · rw [if_neg h4]
            by_cases h5 : headByte (List.tail rest) = 34
            · rw [if_pos h5]
              exact ih ..
            · rw [if_neg h5]
              by_cases h6 : headByte (List.tail rest) = 92
              · rw [if_pos h6]
                exact ih ..
              · rw [if_neg h6]
                by_cases h7 : headByte (List.tail rest) = 47
                · rw [if_pos h7]
                  exact ih ..
                · rw [if_neg h7]
                  by_cases h8 : headByte (List.tail rest) = 98
                  · rw [if_pos h8]
                    exact ih ..
                  · rw [if_neg h8]
                    by_cases h9 : headByte (List.tail rest) = 102
                    · rw [if_pos h9]
                      exact ih ..
                    · rw [if_neg h9]
                      by_cases h10 : headByte (List.tail rest) = 110
                      · rw [if_pos h10]
                        exact ih ..
                      · rw [if_neg h10]
                        by_cases h11 : headByte (List.tail rest) = 114
                        · rw [if_pos h11]
                          exact ih ..
                        · rw [if_neg h11]
                          by_cases h12 : headByte (List.tail rest) = 116
                          · rw [if_pos h12]
                            exact ih ..
                          · rw [if_neg h12]
                            by_cases h13 : headByte (List.tail rest) = 117
                            · rw [if_pos h13]
                              rcases hu : readUnicodeEscape (List.tail rest) (advancePos 92 p) with ⟨em | bs, r2, p2⟩
                              · exact Or.inr rfl
                              · exact ih ..
                            · rw [if_neg h13]
                              exact Or.inr rfl
        · rw [if_neg h3]
          exact ih ..

theorem readString_ttype (rest : GoStr) (p : Position) :
    (readString rest p).tok.ttype = .STRING ∨ (readString rest p).tok.ttype = .INVALID := by
  cases rest with
  | nil => simp [readString]
  | cons c r => exact strLoop_ttype p (r.length + 1) [] r (advancePos 34 p)

theorem numExp_ttype (sp : Position) (v rest : GoStr) (p : Position) :
    (numExp sp v rest p).tok.ttype = .NUMBER ∨ (numExp sp v rest p).tok.ttype = .INVALID := by
  simp only [numExp]
  repeat' split
  all_goals simp

theorem numFrac_ttype (sp : Position) (v rest : GoStr) (p : Position) :
    (numFrac sp v rest p).tok.ttype = .NUMBER ∨
    (numFrac sp v rest p).tok.ttype = .INVALID := by
  simp only [numFrac]
  split
  · split
    · simp
    · exact numExp_ttype _ _ _ _
  · exact numExp_ttype _ _ _ _

theorem numInt_ttype (sp : Position) (v rest : GoStr) (p : Position) :
    (numInt sp v rest p).tok.ttype = .NUMBER ∨
    (numInt sp v rest p).tok.ttype = .INVALID := by
  simp only [numInt]
  split
  · split
    · simp
    · exact numFrac_ttype _ _ _ _
  · exact numFrac_ttype _ _ _ _

theorem readNumber_ttype (rest : GoStr) (p : Position) :
    (readNumber rest p).tok.ttype = .NUMBER ∨
    (readNumber rest p).tok.ttype = .INVALID := by
  simp only [readNumber]
  split
  · split
    · simp
    · exact numInt_ttype _ _ _ _
  · exact numInt_ttype _ _ _ _

theorem readKeyword_keywordTokOK (rest : GoStr) (p : Position) :
    keywordTokOK (readKeyword rest p).tok := by
  simp only [readKeyword]
  split
  · rename_i hcond
    rw [Bool.or_eq_true, decide_eq_true_eq, decide_eq_true_eq] at hcond
    exact ⟨fun _ => hcond, fun hn => by simp at hn⟩
  · split
    · rename_i hcond
      exact ⟨fun hb => by simp at hb, fun _ => hcond⟩
    · exact keywordTokOK_of_ne (by simp) (by simp)

theorem lexNextToken_keywordTokOK (s : LexState) : keywordTokOK (lexNextToken s).2.1 := by
  simp only [lexNextToken]
  generalize skipWhitespace s.rest s.pos = w
  by_cases h1 : headByte w.1 = 123
  · rw [if_pos h1]
    exact keywordTokOK_of_ne (by simp) (by simp)
  · rw [if_neg h1]
    by_cases h2 : headByte w.1 = 125
    · rw [if_pos h2]
      exact keywordTokOK_of_ne (by simp) (by simp)
    · rw [if_neg h2]
      by_cases h3 : headByte w.1 = 91
      · rw [if_pos h3]
        exact keywordTokOK_of_ne (by simp) (by simp)
      · rw [if_neg h3]
        by_cases h4 : headByte w.1 = 93
        · rw [if_pos h4]
          exact keywordTokOK_of_ne (by simp) (by simp)
        · rw [if_neg h4]
          by_cases h5 : headByte w.1 = 58
          · rw [if_pos h5]
            exact keywordTokOK_of_ne (by simp) (by simp)
          · rw [if_neg h5]
            by_cases h6 : headByte w.1 = 44
            · rw [if_pos h6]
              exact keywordTokOK_of_ne (by simp) (by simp)
            · rw [if_neg h6]
              by_cases h7 : headByte w.1 = 34
              · rw [if_pos h7]
                exact keywordTokOK_of_ne
                  (by rcases readString_ttype w.1 w.2 with h | h <;> simp [h])
                  (by rcases readString_ttype w.1 w.2 with h | h <;> simp [h])
              · rw [if_neg h7]
                by_cases h8 : headByte w.1 = 0
                · rw [if_pos h8]
                  exact keywordTokOK_of_ne (by simp) (by simp)
                · rw [if_neg h8]
                  by_cases h9 : (decide (headByte w.1 = 45) || isDigit (headByte w.1)) = true
                  · rw [if_pos h9]
                    exact keywordTokOK_of_ne
                      (by rcases readNumber_ttype w.1 w.2 with h | h <;> simp [h])
                      (by rcases readNumber_ttype w.1 w.2 with h | h <;> simp [h])
                  · rw [if_neg h9]
                    by_cases h10 : isAlpha (headByte w.1) = true
                    · rw [if_pos h10]
                      exact readKeyword_keywordTokOK w.1 w.2
                    · rw [if_neg h10]
                      by_cases h11 : goIsPrint (headByte w.1) = true
                      · rw [if_pos h11]
                        exact keywordTokOK_of_ne (by simp) (by simp)
                      · rw [if_neg h11]
                        exact keywordTokOK_of_ne (by simp) (by simp)

/-- C10 (confirmed): every token the lexer returns with type BOOLEAN has
value exactly "true" or "false" and every token with type NULL has value
exactly "null" (first conjunct, for every lexer state); consequently the
"invalid boolean value" and "invalid null value" branches of parseBoolean
and parseNull are unreachable on lexer-produced tokens: on those values
the steps succeed (remaining conjuncts). -/
theorem C10_keyword_tokens :
    (∀ (s l2 : LexState) (tok : Token) (err : Option GoStr),
        lexNextToken s = (l2, tok, err) →
        (tok.ttype = .BOOLEAN →
          tok.value = strBytes "true" ∨ tok.value = strBytes "false") ∧
        (tok.ttype = .NULL → tok.value = strBytes "null")) ∧
    (∀ p : PState, p.cur.value = strBytes "true" →
        parseBooleanStep p = .ok (.bool true, nextTokenP p)) ∧
    (∀ p : PState, p.cur.value = strBytes "false" →
        parseBooleanStep p = .ok (.bool false, nextTokenP p)) ∧
    (∀ p : PState, p.cur.value = strBytes "null" →
        parseNullStep p = .ok (.null, nextTokenP p)) := by
  refine ⟨?_, ?_, ?_, ?_⟩
  · intro s l2 tok err h
    have hg := lexNextToken_keywordTokOK s
    rw [h] at hg
    exact hg
  · intro p h
    simp [parseBooleanStep, h]
  · intro p h
    simp [parseBooleanStep, h]
    decide
  · intro p h
    simp [parseNullStep, h]

/-- C10 witness: the lexer fact applied to the scan of the input true,
and the parse steps applied to parser states primed from true and null. -/
theorem C10_keyword_tokens_witness :
    ((⟨.BOOLEAN, strBytes "true", ⟨1, 1, 0⟩⟩ : Token).value = strBytes "true" ∨
      (⟨.BOOLEAN, strBytes "true", ⟨1, 1, 0⟩⟩ : Token).value = strBytes "false") ∧
    parseBooleanStep (pInit (strBytes "true")) =
      .ok (.bool true, nextTokenP (pInit (strBytes "true"))) ∧
    parseNullStep (pInit (strBytes "null")) =
      .ok (.null, nextTokenP (pInit (strBytes "null"))) := by
  refine ⟨?_, ?_, ?_⟩
  · exact (C10_keyword_tokens.1 (lexInit (strBytes "true")) ⟨[], ⟨1, 5, 4⟩⟩
      ⟨.BOOLEAN, strBytes "true", ⟨1, 1, 0⟩⟩ none rfl).1 rfl
  · exact C10_keyword_tokens.2.1 (pInit (strBytes "true")) rfl
  · exact C10_keyword_tokens.2.2.2 (pInit (strBytes "null")) rfl

end JP
